import Mathlib

/-!
Verification of the KMD NWP backend fetch-and-process pipeline.

This file shallowly embeds the core utility modules of the repository
(`wrf_data/utils/grib_processor.py`, `wrf_data/utils/color_mapper.py`,
`wrf_data/utils/ssh_fetcher.py`) and proves/refutes the specified
properties of the aggregation engine, the color mapper, the tunneled
transport and the retrying downloader.

Numeric grids are modelled as lists of rows of rationals; NaN-capable
grids use `Option` entries (`none` models the not-a-number sentinel).
Filesystem and network state is passed explicitly through `World`
values; exception outcomes of remote operations are supplied by
explicit oracles.
-/

namespace KMDNWP

/-- A decoded 2D value grid: a list of rows of rational values (a
`numpy` 2D array in `grib_processor.py`). -/
abbrev Grid := List (List ℚ)

/-- Elementwise combination of two grids. -/
def gridZip (f : ℚ → ℚ → ℚ) (a b : Grid) : Grid :=
  List.zipWith (List.zipWith f) a b

/-- Elementwise sum, modelling `previous_step_data[param] + values`. -/
def gridAdd : Grid → Grid → Grid := gridZip (· + ·)

/-- Elementwise maximum, modelling `np.maximum`. -/
def gridMax : Grid → Grid → Grid := gridZip max

/-- Elementwise minimum, modelling `np.minimum`. -/
def gridMin : Grid → Grid → Grid := gridZip min

/-- Zero grid of the same shape, modelling `np.zeros_like(values)`. -/
def zerosLike (g : Grid) : Grid := g.map (fun row => row.map (fun _ => 0))

/-- One aggregation step of `_process_grib_file`
(`grib_processor.py` lines 252-268): initialise the carried value when
absent (`np.zeros_like` for `rainfall`, the current grid otherwise),
then combine according to the parameter code.  Note the source applies
a running maximum to `cape` as well (line 264); only the remaining
parameters (`rh`) pass through unchanged. -/
def combineStep (param : String) (prev : Option Grid) (current : Grid) : Grid :=
  let prevVal : Grid :=
    match prev with
    | some p => p
    | none => if param = "rainfall" then zerosLike current else current
  if param = "rainfall" then gridAdd prevVal current
  else if param = "temp-max" then gridMax prevVal current
  else if param = "temp-min" then gridMin prevVal current
  else if param = "cape" then gridMax prevVal current
  else current

/-- Sequentially combining a run of grids for one parameter, threading
the carried value exactly as `previous_step_data[param]` is threaded
from one forecast hour to the next (`none` models the absent key). -/
def aggRun (param : String) (gs : List Grid) : Option Grid :=
  gs.foldl (fun st g => some (combineStep param st g)) none

theorem zipWith_self_eq (f : ℚ → ℚ → ℚ) (hf : ∀ a, f a a = a) (l : List ℚ) :
    List.zipWith f l l = l := by
  induction l with
  | nil => rfl
  | cons a t ih => rw [List.zipWith_cons_cons, hf, ih]

theorem gridZip_self (f : ℚ → ℚ → ℚ) (hf : ∀ a, f a a = a) (g : Grid) :
    gridZip f g g = g := by
  induction g with
  | nil => rfl
  | cons r t ih =>
    unfold gridZip at ih ⊢
    rw [List.zipWith_cons_cons, zipWith_self_eq f hf r, ih]

theorem zipWith_add_zero_row (l : List ℚ) :
    List.zipWith (· + ·) (l.map (fun _ => 0)) l = l := by
  induction l with
  | nil => rfl
  | cons a t ih => rw [List.map_cons, List.zipWith_cons_cons, zero_add, ih]

theorem gridAdd_zerosLike (g : Grid) : gridAdd (zerosLike g) g = g := by
  induction g with
  | nil => rfl
  | cons r t ih =>
    unfold gridAdd gridZip zerosLike at ih ⊢
    rw [List.map_cons, List.zipWith_cons_cons, zipWith_add_zero_row r, ih]

theorem aggRun_foldl_of_op (param : String) (op : Grid → Grid → Grid)
    (hop : ∀ p c, combineStep param (some p) c = op p c) :
    ∀ (gs : List Grid) (a : Grid),
      List.foldl (fun st g => some (combineStep param st g)) (some a) gs
        = some (gs.foldl op a) := by
  intro gs
  induction gs with
  | nil => intro a; rfl
  | cons g t ih =>
    intro a
    simp only [List.foldl_cons, hop]
    exact ih (op a g)

theorem combineStep_rainfall_some (p c : Grid) :
    combineStep "rainfall" (some p) c = gridAdd p c := by
  simp [combineStep]

theorem combineStep_rainfall_none (c : Grid) :
    combineStep "rainfall" none c = c := by
  simp [combineStep, gridAdd_zerosLike]

theorem combineStep_tmax_some (p c : Grid) :
    combineStep "temp-max" (some p) c = gridMax p c := by
  simp [combineStep]

theorem combineStep_tmax_none (c : Grid) :
    combineStep "temp-max" none c = c := by
  simp [combineStep]
  exact gridZip_self max (fun a => max_self a) c

theorem combineStep_tmin_some (p c : Grid) :
    combineStep "temp-min" (some p) c = gridMin p c := by
  simp [combineStep]

theorem combineStep_tmin_none (c : Grid) :
    combineStep "temp-min" none c = c := by
  simp [combineStep]
  exact gridZip_self min (fun a => min_self a) c

/-- Claim C1: for `rainfall`, combining a run of grids sequentially is
accumulative — combining `[h0, h1, h2]` equals combining `[h0, h1]` and
then combining the result with `h2`, and the running value over a
non-empty run is the elementwise sum of all grids seen (starting from a
zero grid when there is no previous); for `temp-max` (resp. `temp-min`)
the running value is the elementwise maximum (resp. minimum) over all
grids seen (starting from the current grid when there is no previous).
The running result after step n is the statement applied to the
length-(n+1) prefix of the run. -/
theorem aggregation_combine_fold :
    (∀ h0 h1 h2 : Grid,
      aggRun "rainfall" [h0, h1, h2]
        = some (combineStep "rainfall" (aggRun "rainfall" [h0, h1]) h2))
    ∧ (∀ (g : Grid) (gs : List Grid),
        aggRun "rainfall" (g :: gs) = some (gs.foldl gridAdd g))
    ∧ (∀ (g : Grid) (gs : List Grid),
        aggRun "temp-max" (g :: gs) = some (gs.foldl gridMax g))
    ∧ (∀ (g : Grid) (gs : List Grid),
        aggRun "temp-min" (g :: gs) = some (gs.foldl gridMin g)) := by
  refine ⟨fun h0 h1 h2 => rfl, fun g gs => ?_, fun g gs => ?_, fun g gs => ?_⟩
  · show List.foldl _ _ (g :: gs) = _
    rw [List.foldl_cons]
    have h0 : combineStep "rainfall" none g = g := combineStep_rainfall_none g
    rw [h0]
    exact aggRun_foldl_of_op "rainfall" gridAdd combineStep_rainfall_some gs g
  · show List.foldl _ _ (g :: gs) = _
    rw [List.foldl_cons, combineStep_tmax_none g]
    exact aggRun_foldl_of_op "temp-max" gridMax combineStep_tmax_some gs g
  · show List.foldl _ _ (g :: gs) = _
    rw [List.foldl_cons, combineStep_tmin_none g]
    exact aggRun_foldl_of_op "temp-min" gridMin combineStep_tmin_some gs g

theorem combineStep_passthrough (p : String)
    (h1 : p ≠ "rainfall") (h2 : p ≠ "temp-max") (h3 : p ≠ "temp-min")
    (h4 : p ≠ "cape") (prev : Option Grid) (cur : Grid) :
    combineStep p prev cur = cur := by
  simp only [combineStep, if_neg h1, if_neg h2, if_neg h3, if_neg h4]

/-- Claim C7 (amended): the aggregation step passes the current grid
through unchanged for every parameter other than `rainfall`,
`temp-max`, `temp-min` and `cape` (in this repository: `rh`); `cape`
is instead combined with the elementwise running maximum
(grib_processor.py line 264). -/
theorem combine_passthrough_except_cape :
    (∀ p : String, p ≠ "rainfall" → p ≠ "temp-max" → p ≠ "temp-min" →
      p ≠ "cape" → ∀ (prev : Option Grid) (cur : Grid),
        combineStep p prev cur = cur)
    ∧ (∀ (p c : Grid), combineStep "cape" (some p) c = gridMax p c) := by
  constructor
  · exact combineStep_passthrough
  · intro p c
    simp [combineStep]

/-- Witness for C7 at the concrete parameter `rh`. -/
theorem combine_passthrough_witness :
    combineStep "rh" (some [[(1 : ℚ)]]) [[2]] = [[2]]
    ∧ combineStep "cape" (some [[(1 : ℚ)]]) [[2]] = gridMax [[1]] [[2]] :=
  ⟨combine_passthrough_except_cape.1 "rh" (by decide) (by decide) (by decide)
      (by decide) (some [[(1 : ℚ)]]) [[2]],
    combine_passthrough_except_cape.2 [[(1 : ℚ)]] [[2]]⟩

/-- Counterexample for C7 as stated: `cape` does not pass the current
grid through — with carried grid `[[5]]` and current grid `[[3]]` the
combine step returns `[[5]]`, not `[[3]]`. -/
theorem cape_not_passthrough_counterexample :
    combineStep "cape" (some [[(5 : ℚ)]]) [[3]] ≠ [[3]] := by decide

/-- Association-list model of the Python dict `previous_step_data`:
lookup. -/
def lookupParam : List (String × Grid) → String → Option Grid
  | [], _ => none
  | (q, g) :: rest, p => if q = p then some g else lookupParam rest p

/-- Association-list model of the Python dict `previous_step_data`:
assignment (replace an existing key, append a new one). -/
def updateParam : List (String × Grid) → String → Grid → List (String × Grid)
  | [], p, g => [(p, g)]
  | (q, h) :: rest, p, g =>
      if q = p then (p, g) :: rest else (q, h) :: updateParam rest p g

/-- Every `k`-th element of a list starting at index `i`, modelling
numpy slicing `[::k]`. -/
def strideAux {α : Type} (k : Nat) : Nat → List α → List α
  | _, [] => []
  | i, a :: rest =>
      if i % k = 0 then a :: strideAux k (i + 1) rest
      else strideAux k (i + 1) rest

/-- Every `k`-th element of a list, modelling numpy slicing `[::k]`. -/
def strideIdx {α : Type} (k : Nat) (l : List α) : List α :=
  strideAux k 0 l

/-- Subsampling `values[::k, ::k]` of `_process_grib_file`. -/
def subsampleGrid (k : Nat) (g : Grid) : Grid :=
  (strideIdx k g).map (fun row => strideIdx k row)

/-- Parameter loop of `_process_grib_file` (grib_processor.py lines
245-285): for each requested parameter, decode it (`none` models
`extract_parameter` returning `None`, in which case the parameter is
skipped), combine with the carried value, store the combined value
back into `previous_step_data`, and record the subsampled combined
grid in the result.  Returns the recorded results together with the
final `previous_step_data`. -/
def processParams (decode : String → Option Grid) (k : Nat) :
    List String → List (String × Grid) →
      List (String × Grid) × List (String × Grid)
  | [], prev => ([], prev)
  | p :: rest, prev =>
    match decode p with
    | none => processParams decode k rest prev
    | some g =>
      let newV := combineStep p (lookupParam prev p) g
      let res := processParams decode k rest (updateParam prev p newV)
      ((p, subsampleGrid k newV) :: res.1, res.2)

/-- `_process_grib_file` (grib_processor.py lines 218-290): processes
one GRIB file; a `none` value for `prev` models the default
`previous_step_data=None`, replaced by a fresh empty dict. -/
def _process_grib_file (decode : String → Option Grid)
    (params : List String) (k : Nat)
    (prev : Option (List (String × Grid))) : List (String × Grid) :=
  (processParams decode k params (prev.getD [])).1

/-- `process_grib_folder` (grib_processor.py lines 320-342): batch
processes the files of a run folder, in `os.listdir` order, calling
`_process_grib_file` WITHOUT the `previous_step_data` argument — every
file is therefore processed against a fresh empty carry-over dict. -/
def process_grib_folder (files : List (String → Option Grid))
    (params : List String) (k : Nat) : List (List (String × Grid)) :=
  files.map (fun decode => _process_grib_file decode params k none)

/-- Decoded rainfall grid of the first forecast-hour file. -/
def rainDecode1 : String → Option Grid :=
  fun p => if p = "rainfall" then some [[1]] else none

/-- Decoded rainfall grid of the second forecast-hour file. -/
def rainDecode2 : String → Option Grid :=
  fun p => if p = "rainfall" then some [[2]] else none

/-- Claim C8, evaluated at the failing input: a run folder holding two
rainfall files with grids `[[1]]` and `[[2]]` is batch-processed with a
fresh aggregation state per file, so the rainfall value reported for
the second file is `[[2]]` — not the cumulative sum `[[1 + 2]] = [[3]]`
that carrying the state across the run in hour order would produce. -/
theorem folder_aggregation_reset_eval :
    process_grib_folder [rainDecode1, rainDecode2] ["rainfall"] 1
      = [[("rainfall", [[(1 : ℚ)]])], [("rainfall", [[2]])]]
    ∧ (process_grib_folder [rainDecode1, rainDecode2] ["rainfall"] 1).getD 1 []
        ≠ [("rainfall", gridAdd [[1]] [[2]])] := by
  constructor
  · norm_num [process_grib_folder, _process_grib_file, processParams,
      rainDecode1, rainDecode2, combineStep, lookupParam, updateParam,
      subsampleGrid, strideIdx, strideAux, gridAdd, gridZip, zerosLike]
  · norm_num [process_grib_folder, _process_grib_file, processParams,
      rainDecode1, rainDecode2, combineStep, lookupParam, updateParam,
      subsampleGrid, strideIdx, strideAux, gridAdd, gridZip, zerosLike]

/-- One bin of a color scale: the half-open range `[bmin, bmax)` and
its color (`{min, max, color}` dicts in color_mapper.py). -/
structure ColorBin where
  bmin : ℚ
  bmax : ℚ
  color : String
deriving DecidableEq

/-- The fully transparent sentinel returned for missing values. -/
def TRANSPARENT : String := "rgba(0,0,0,0)"

/-- Insert a bin into a list sorted ascending by `bmin`. -/
def insertBin (b : ColorBin) : List ColorBin → List ColorBin
  | [] => [b]
  | c :: rest =>
      if b.bmin < c.bmin then b :: c :: rest else c :: insertBin b rest

/-- Sort a scale ascending by `bmin`, modelling
`sorted(color_scale, key=lambda x: x["min"])` in `ColorMapper.__init__`. -/
def sortScale : List ColorBin → List ColorBin
  | [] => []
  | b :: rest => insertBin b (sortScale rest)

/-- `ColorMapper`: holds the scale sorted ascending by bin minimum. -/
structure ColorMapper where
  color_scale : List ColorBin
deriving DecidableEq

/-- `ColorMapper.__init__`: sorts the supplied scale by bin minimum. -/
def ColorMapper.ofScale (scale : List ColorBin) : ColorMapper :=
  ⟨sortScale scale⟩

/-- The scan loop of `ColorMapper.map_value`: first bin with
`bin.min <= v < bin.max`, by list order. -/
def findBin (v : ℚ) : List ColorBin → Option ColorBin
  | [] => none
  | b :: rest =>
      if b.bmin ≤ v ∧ v < b.bmax then some b else findBin v rest

/-- Python negative indexing `color_scale[-1]`: the last element. -/
def lastBin : List ColorBin → Option ColorBin
  | [] => none
  | [b] => some b
  | _ :: b :: rest => lastBin (b :: rest)

/-- `ColorMapper.map_value` (color_mapper.py lines 27-44): `none`
models a `None`/NaN input and maps to the transparent sentinel; a
finite value is scanned against the bins, clamping to the last bin's
color at or above its max and to the first bin's color otherwise.  The
result is `none` exactly when the scale is empty and the scan falls
through (an `IndexError` in the source). -/
def ColorMapper.map_value (m : ColorMapper) (value : Option ℚ) : Option String :=
  match value with
  | none => some TRANSPARENT
  | some v =>
    match findBin v m.color_scale with
    | some b => some b.color
    | none =>
      match lastBin m.color_scale, m.color_scale.head? with
      | some last, some first =>
          if last.bmax ≤ v then some last.color else some first.color
      | _, _ => none

/-- `ColorMapper.map_grid`: elementwise application over the rows. -/
def ColorMapper.map_grid (m : ColorMapper) (g : List (List (Option ℚ))) :
    List (List (Option String)) :=
  g.map (fun row => row.map (fun v => m.map_value v))

/-- Well-ordered scale: bins are pairwise ordered (each bin ends at or
before every later bin starts) and each bin has `bmin <= bmax` — the
ColorScale invariant assumed of every active parameter scale. -/
def ScaleOrdered (s : List ColorBin) : Prop :=
  s.Pairwise (fun a b => a.bmax ≤ b.bmin) ∧ ∀ b ∈ s, b.bmin ≤ b.bmax

theorem findBin_eq_of_mem (v : ℚ) :
    ∀ s : List ColorBin, ScaleOrdered s → ∀ b ∈ s,
      b.bmin ≤ v → v < b.bmax → findBin v s = some b := by
  intro s
  induction s with
  | nil => intro _ b hb; exact absurd hb (List.not_mem_nil b)
  | cons c rest ih =>
    intro hord b hb hlo hhi
    rcases List.pairwise_cons.mp hord.1 with ⟨hc, hrest⟩
    rcases List.mem_cons.mp hb with hbc | hbr
    · subst hbc
      simp only [findBin, if_pos (And.intro hlo hhi)]
    · have hnc : ¬(c.bmin ≤ v ∧ v < c.bmax) := by
        rintro ⟨_, hvc⟩
        exact absurd (lt_of_lt_of_le hvc (le_trans (hc b hbr) hlo)) (lt_irrefl v)
      simp only [findBin, if_neg hnc]
      exact ih ⟨hrest, fun x hx => hord.2 x (List.mem_cons_of_mem c hx)⟩ b hbr hlo hhi

theorem lastBin_mem : ∀ (s : List ColorBin) (b : ColorBin),
    lastBin s = some b → b ∈ s := by
  intro s
  induction s with
  | nil => intro b h; exact absurd h (by simp [lastBin])
  | cons c rest ih =>
    intro b h
    cases rest with
    | nil =>
      simp only [lastBin, Option.some.injEq] at h
      simp [h]
    | cons d tail =>
      simp only [lastBin] at h
      exact List.mem_cons_of_mem c (ih b h)

theorem bmax_le_lastBin : ∀ (s : List ColorBin), ScaleOrdered s →
    ∀ last, lastBin s = some last → ∀ b ∈ s, b.bmax ≤ last.bmax := by
  intro s
  induction s with
  | nil => intro _ last h; exact absurd h (by simp [lastBin])
  | cons c rest ih =>
    intro hord last hlast b hb
    rcases List.pairwise_cons.mp hord.1 with ⟨hc, hrest⟩
    have hordr : ScaleOrdered rest :=
      ⟨hrest, fun x hx => hord.2 x (List.mem_cons_of_mem c hx)⟩
    cases rest with
    | nil =>
      simp only [lastBin, Option.some.injEq] at hlast
      rcases List.mem_cons.mp hb with hbc | hbr
      · subst hbc; rw [hlast]
      · exact absurd hbr (List.not_mem_nil b)
    | cons d tail =>
      simp only [lastBin] at hlast
      rcases List.mem_cons.mp hb with hbc | hbr
      · subst hbc
        have hmem : last ∈ d :: tail := lastBin_mem (d :: tail) last hlast
        exact le_trans (hc last hmem)
          (hord.2 last (List.mem_cons_of_mem b hmem))
      · exact ih hordr last hlast b hbr

theorem findBin_none_of_ge_last (v : ℚ) (s : List ColorBin)
    (hord : ScaleOrdered s) (last : ColorBin) (hlast : lastBin s = some last)
    (hge : last.bmax ≤ v) : findBin v s = none := by
  induction s with
  | nil => rfl
  | cons c rest ih =>
    have hcle : c.bmax ≤ last.bmax :=
      bmax_le_lastBin (c :: rest) hord last hlast c (List.mem_cons_self c rest)
    have hnc : ¬(c.bmin ≤ v ∧ v < c.bmax) := by
      rintro ⟨_, hvc⟩
      exact absurd (lt_of_lt_of_le hvc (le_trans hcle hge)) (lt_irrefl v)
    simp only [findBin, if_neg hnc]
    rcases List.pairwise_cons.mp hord.1 with ⟨hc, hrest⟩
    have hordr : ScaleOrdered rest :=
      ⟨hrest, fun x hx => hord.2 x (List.mem_cons_of_mem c hx)⟩
    cases rest with
    | nil => rfl
    | cons d tail =>
      have hlast2 : lastBin (d :: tail) = some last := by
        simpa only [lastBin] using hlast
      exact ih hordr hlast2

theorem findBin_none_of_all (v : ℚ) :
    ∀ t : List ColorBin, (∀ b ∈ t, ¬(b.bmin ≤ v ∧ v < b.bmax)) →
      findBin v t = none := by
  intro t
  induction t with
  | nil => intro _; rfl
  | cons x xs ihx =>
    intro hall
    simp only [findBin, if_neg (hall x (List.mem_cons_self x xs))]
    exact ihx (fun b hb => hall b (List.mem_cons_of_mem x hb))

theorem first_bmin_le (s : List ColorBin) (hord : ScaleOrdered s)
    (first : ColorBin) (hfirst : s.head? = some first) :
    ∀ b ∈ s, first.bmin ≤ b.bmin := by
  cases s with
  | nil => exact absurd hfirst (by simp)
  | cons c rest =>
    simp only [List.head?_cons, Option.some.injEq] at hfirst
    subst hfirst
    intro b hb
    rcases List.pairwise_cons.mp hord.1 with ⟨hc, _⟩
    rcases List.mem_cons.mp hb with hbc | hbr
    · simp [hbc]
    · exact le_trans (hord.2 c (List.mem_cons_self c rest)) (hc b hbr)

theorem findBin_none_of_lt_first (v : ℚ) (s : List ColorBin)
    (hord : ScaleOrdered s) (first : ColorBin) (hfirst : s.head? = some first)
    (hlt : v < first.bmin) : findBin v s = none := by
  apply findBin_none_of_all
  intro b hb
  rintro ⟨hbv, _⟩
  exact absurd (lt_of_lt_of_le hlt
    (le_trans (first_bmin_le s hord first hfirst b hb) hbv)) (lt_irrefl v)

theorem lastBin_isSome : ∀ s : List ColorBin, s ≠ [] →
    ∃ b, lastBin s = some b := by
  intro s
  induction s with
  | nil => intro h; exact absurd rfl h
  | cons c rest ih =>
    intro _
    cases rest with
    | nil => exact ⟨c, rfl⟩
    | cons d tail =>
      rcases ih (by simp) with ⟨x, hx⟩
      exact ⟨x, by simpa only [lastBin] using hx⟩

theorem head_mem_of_head? (s : List ColorBin) (first : ColorBin)
    (hfirst : s.head? = some first) : first ∈ s := by
  cases s with
  | nil => exact absurd hfirst (by simp)
  | cons c rest =>
    simp only [List.head?_cons, Option.some.injEq] at hfirst
    simp [hfirst.symm]

/-- Claim C3: for every non-empty well-ordered color scale,
`map_value` is total with asymmetric clamping: a missing/NaN input
maps to the transparent sentinel; a finite value inside some bin's
half-open range maps to that bin's color; a value at or above the last
bin's max clamps to the last bin's color; a value below the first
bin's min clamps to the first bin's color. -/
theorem map_value_total_clamping (m : ColorMapper)
    (hord : ScaleOrdered m.color_scale) :
    (m.color_scale ≠ [] → m.map_value none = some TRANSPARENT)
    ∧ (∀ v b, b ∈ m.color_scale → b.bmin ≤ v → v < b.bmax →
        m.map_value (some v) = some b.color)
    ∧ (∀ v last, lastBin m.color_scale = some last → last.bmax ≤ v →
        m.map_value (some v) = some last.color)
    ∧ (∀ v first, m.color_scale.head? = some first → v < first.bmin →
        m.map_value (some v) = some first.color) := by
  refine ⟨fun _ => rfl, ?_, ?_, ?_⟩
  · intro v b hb hlo hhi
    simp only [ColorMapper.map_value,
      findBin_eq_of_mem v m.color_scale hord b hb hlo hhi]
  · intro v last hlast hge
    have hfind := findBin_none_of_ge_last v m.color_scale hord last hlast hge
    have hfirst : ∃ first, m.color_scale.head? = some first := by
      cases hs : m.color_scale with
      | nil => rw [hs] at hlast; exact absurd hlast (by simp [lastBin])
      | cons c rest => exact ⟨c, by simp⟩
    rcases hfirst with ⟨first, hfirst⟩
    simp only [ColorMapper.map_value, hfind, hlast, hfirst, if_pos hge]
  · intro v first hfirst hlt
    have hfind := findBin_none_of_lt_first v m.color_scale hord first hfirst hlt
    have hne : m.color_scale ≠ [] := by
      intro hs
      rw [hs] at hfirst
      exact absurd hfirst (by simp)
    rcases lastBin_isSome m.color_scale hne with ⟨last, hlast⟩
    have hmem : first ∈ m.color_scale := head_mem_of_head? m.color_scale first hfirst
    have hnge : ¬ last.bmax ≤ v := by
      intro hge
      have h1 : first.bmax ≤ last.bmax :=
        bmax_le_lastBin m.color_scale hord last hlast first hmem
      have h2 : first.bmin ≤ first.bmax := hord.2 first hmem
      exact absurd (lt_of_lt_of_le hlt (le_trans h2 (le_trans h1 hge)))
        (lt_irrefl v)
    simp only [ColorMapper.map_value, hfind, hlast, hfirst, if_neg hnge]

/-- The two-bin example scale from the specification. -/
def exampleMapper : ColorMapper :=
  ColorMapper.ofScale [⟨0, 15, "A"⟩, ⟨15, 9999, "B"⟩]

/-- Witness for C3 on the concrete example scale
`[{0,15,A},{15,9999,B}]`: `-5` clamps low to `A`, `15` falls in the
second bin giving `B`, `20000` clamps high to `B`, and a missing value
gives the transparent sentinel. -/
theorem map_value_total_clamping_witness :
    exampleMapper.map_value (some (-5)) = some "A"
    ∧ exampleMapper.map_value (some 15) = some "B"
    ∧ exampleMapper.map_value (some 20000) = some "B"
    ∧ exampleMapper.map_value none = some TRANSPARENT := by
  have hord : ScaleOrdered exampleMapper.color_scale := by
    constructor
    · norm_num [exampleMapper, ColorMapper.ofScale, sortScale, insertBin]
    · intro b hb
      simp only [exampleMapper, ColorMapper.ofScale, sortScale, insertBin] at hb
      norm_num at hb
      rcases hb with hb | hb <;> rw [hb] <;> norm_num
  refine ⟨?_, ?_, ?_, ?_⟩
  · exact (map_value_total_clamping exampleMapper hord).2.2.2 (-5) ⟨0, 15, "A"⟩
      (by norm_num [exampleMapper, ColorMapper.ofScale, sortScale, insertBin])
      (by norm_num)
  · exact (map_value_total_clamping exampleMapper hord).2.1 15 ⟨15, 9999, "B"⟩
      (by norm_num [exampleMapper, ColorMapper.ofScale, sortScale, insertBin])
      (by norm_num) (by norm_num)
  · exact (map_value_total_clamping exampleMapper hord).2.2.1 20000
      ⟨15, 9999, "B"⟩
      (by norm_num [exampleMapper, ColorMapper.ofScale, sortScale, insertBin,
        lastBin])
      (by norm_num)
  · exact (map_value_total_clamping exampleMapper hord).1
      (by simp [exampleMapper, ColorMapper.ofScale, sortScale, insertBin])

/-- Official KMD rainfall color scale (`get_rainfall_mapper`). -/
def get_rainfall_mapper : ColorMapper :=
  ColorMapper.ofScale
    [⟨0, 1, "#ffffff"⟩, ⟨1, 10, "#d3ff55"⟩, ⟨10, 20, "#73ff55"⟩,
     ⟨20, 50, "#55dfff"⟩, ⟨50, 70, "#55a9ff"⟩, ⟨70, 100, "#ffaa00"⟩,
     ⟨100, 120, "#ff5500"⟩, ⟨120, 9999, "#ff0000"⟩]

/-- Official KMD maximum-temperature color scale (`get_temp_max_mapper`). -/
def get_temp_max_mapper : ColorMapper :=
  ColorMapper.ofScale
    [⟨0, 15, "#70a800"⟩, ⟨15, 20, "#98e600"⟩, ⟨20, 25, "#e6e600"⟩,
     ⟨25, 30, "#ffaa00"⟩, ⟨30, 35, "#ff5a00"⟩, ⟨35, 9999, "#c00000"⟩]

/-- Official KMD minimum-temperature color scale (`get_temp_min_mapper`). -/
def get_temp_min_mapper : ColorMapper :=
  ColorMapper.ofScale
    [⟨0, 5, "#00006b"⟩, ⟨5, 10, "#0030ff"⟩, ⟨10, 15, "#00a8a8"⟩,
     ⟨15, 20, "#70a800"⟩, ⟨20, 25, "#98e600"⟩, ⟨25, 9999, "#e6e600"⟩]

/-- Generic relative-humidity color scale (`get_rh_mapper`). -/
def get_rh_mapper : ColorMapper :=
  ColorMapper.ofScale
    [⟨0, 20, "#8B4513"⟩, ⟨20, 40, "#D2691E"⟩, ⟨40, 60, "#F0E68C"⟩,
     ⟨60, 80, "#90EE90"⟩, ⟨80, 100, "#00CED1"⟩]

/-- Generic CAPE color scale (`get_cape_mapper`). -/
def get_cape_mapper : ColorMapper :=
  ColorMapper.ofScale
    [⟨0, 500, "#f0f0f0"⟩, ⟨500, 1000, "#ffff99"⟩, ⟨1000, 2000, "#ffcc66"⟩,
     ⟨2000, 3000, "#ff9933"⟩, ⟨3000, 5000, "#ff3333"⟩,
     ⟨5000, 99999, "#cc0000"⟩]

/-- `get_mapper_for_parameter` (color_mapper.py lines 218-231): routes
a parameter code to its mapper via `mappers.get(parameter_code,
get_rainfall_mapper)` — any unknown code silently falls back to the
rainfall mapper. -/
def get_mapper_for_parameter (parameter_code : String) : ColorMapper :=
  if parameter_code = "rainfall" then get_rainfall_mapper
  else if parameter_code = "temp-max" then get_temp_max_mapper
  else if parameter_code = "temp-min" then get_temp_min_mapper
  else if parameter_code = "rh" then get_rh_mapper
  else if parameter_code = "cape" then get_cape_mapper
  else get_rainfall_mapper

/-- Claim C10: for every parameter code outside the known set,
`get_mapper_for_parameter` signals no error and silently returns the
rainfall color-scale mapper. -/
theorem unknown_parameter_gets_rainfall_mapper (p : String)
    (h : p ∉ ["rainfall", "temp-max", "temp-min", "rh", "cape"]) :
    get_mapper_for_parameter p = get_rainfall_mapper := by
  simp only [List.mem_cons, List.mem_singleton, not_or] at h
  obtain ⟨h1, h2, h3, h4, h5, -⟩ := h
  simp only [get_mapper_for_parameter, if_neg h1, if_neg h2, if_neg h3,
    if_neg h4, if_neg h5]

/-- Witness for C10 at the concrete unknown code `windspeed`. -/
theorem unknown_parameter_gets_rainfall_mapper_witness :
    get_mapper_for_parameter "windspeed" = get_rainfall_mapper :=
  unknown_parameter_gets_rainfall_mapper "windspeed" (by decide)

/-- NaN-capable grid: `none` models the NaN/missing-value sentinel of
the decoded numpy array. -/
abbrev NGrid := List (List (Option ℚ))

/-- `values.max()` over the flattened grid, propagating NaN the way
numpy does (any NaN makes the maximum NaN, modelled `none`); only
meaningful for a non-empty grid. -/
def npMax (g : NGrid) : Option ℚ :=
  match g.join with
  | [] => none
  | v :: rest =>
      rest.foldl (fun acc w =>
        match acc, w with
        | some a, some b => some (max a b)
        | _, _ => none) v

/-- `values - 273.15` elementwise (NaN entries stay NaN). -/
def kelvinToCelsius (g : NGrid) : NGrid :=
  g.map (fun row => row.map (fun v => v.map (fun x => x - 273.15)))

/-- `values[~np.isnan(values)]`: the non-missing entries, flattened. -/
def validValues (g : NGrid) : List ℚ :=
  g.join.filterMap id

/-- `np.min` over the valid values, guarded by `len(valid_values) > 0`. -/
def listMin : List ℚ → Option ℚ
  | [] => none
  | v :: rest => some (rest.foldl min v)

/-- `np.max` over the valid values, guarded by `len(valid_values) > 0`. -/
def listMax : List ℚ → Option ℚ
  | [] => none
  | v :: rest => some (rest.foldl max v)

/-- `np.mean` over the valid values, guarded by `len(valid_values) > 0`. -/
def listMean (l : List ℚ) : Option ℚ :=
  if l = [] then none else some (l.sum / l.length)

/-- The numeric fields of the dict built by `extract_parameter`:
the (possibly unit-normalized) value grid, the min/max/mean statistics
over the non-missing values, and the color-mapped grid. -/
structure ExtractResult where
  values : NGrid
  statMin : Option ℚ
  statMax : Option ℚ
  statMean : Option ℚ
  color_data : List (List (Option String))

/-- Builds the result fields of `extract_parameter` from the final
value grid: statistics over the valid values and the color mapping,
both computed on the grid given. -/
def mkExtractResult (p : String) (values : NGrid) : ExtractResult :=
  ⟨values, listMin (validValues values), listMax (validValues values),
    listMean (validValues values),
    (get_mapper_for_parameter p).map_grid values⟩

/-- The Kelvin heuristic of `extract_parameter` (grib_processor.py
lines 141-143): convert when `values.max() > 200`; a NaN maximum
compares false in numpy, so a NaN-containing grid is not converted. -/
def tempNormalize (raw : NGrid) : NGrid :=
  match npMax raw with
  | some m => if 200 < m then kelvinToCelsius raw else raw
  | none => raw

/-- The numeric pipeline of `extract_parameter` (grib_processor.py
lines 137-170) from the decoded value grid onward: for the
temperature-class parameters the Kelvin heuristic is applied first
(`values.max()` on an empty grid raises, which the surrounding
`except` turns into a `None` result, modelled by the empty-join
guard); statistics and color mapping are then computed from the
resulting grid. -/
def extract_parameter_values (p : String) (raw : NGrid) : Option ExtractResult :=
  if p = "temp-max" ∨ p = "temp-min" then
    if raw.join = [] then none
    else some (mkExtractResult p (tempNormalize raw))
  else some (mkExtractResult p raw)

/-- Claim C6: for the temperature-class parameters, when the decoded
grid's maximum exceeds 200 (the Kelvin heuristic), every value has
273.15 subtracted before the min/max/mean statistics and the color
mapping are computed; pointwise, an entry `x` becomes `x - 273.15`. -/
theorem temperature_kelvin_normalization (p : String) (raw : NGrid)
    (hp : p = "temp-max" ∨ p = "temp-min") (m : ℚ)
    (hm : npMax raw = some m) (h200 : 200 < m) :
    (∃ res, extract_parameter_values p raw = some res
      ∧ res.values = kelvinToCelsius raw
      ∧ res.statMin = listMin (validValues (kelvinToCelsius raw))
      ∧ res.statMax = listMax (validValues (kelvinToCelsius raw))
      ∧ res.statMean = listMean (validValues (kelvinToCelsius raw))
      ∧ res.color_data
          = (get_mapper_for_parameter p).map_grid (kelvinToCelsius raw))
    ∧ ∀ i j x, (raw.get? i).bind (fun row => row.get? j) = some (some x) →
        ((kelvinToCelsius raw).get? i).bind (fun row => row.get? j)
          = some (some (x - 273.15)) := by
  constructor
  · have hne : raw.join ≠ [] := by
      intro h
      have hnone : npMax raw = none := by unfold npMax; rw [h]
      rw [hnone] at hm
      exact Option.noConfusion hm
    have hnorm : tempNormalize raw = kelvinToCelsius raw := by
      unfold tempNormalize
      rw [hm]
      exact if_pos h200
    refine ⟨mkExtractResult p (kelvinToCelsius raw), ?_, rfl, rfl, rfl, rfl, rfl⟩
    unfold extract_parameter_values
    rw [if_pos hp, if_neg hne, hnorm]
  · intro i j x hx
    rcases hri : raw.get? i with _ | row
    · rw [hri] at hx
      exact absurd hx (by simp)
    · rw [hri] at hx
      have hrj : row.get? j = some (some x) := by simpa using hx
      have hgi : (kelvinToCelsius raw).get? i
          = some (row.map (fun v => v.map (fun y => y - 273.15))) := by
        unfold kelvinToCelsius
        rw [List.get?_map, hri]
        rfl
      rw [hgi]
      have hmap : (List.map (fun v => Option.map (fun y => y - 273.15) v) row).get? j
          = some (some (x - 273.15)) := by
        rw [List.get?_map, hrj]
        rfl
      simpa using hmap

/-- Witness for C6: the one-cell Kelvin-range grid `[[300.0]]` decoded
for `temp-max` is converted to `[[26.85]]` degrees Celsius, and the
statistics are computed on the converted value. -/
theorem temperature_kelvin_normalization_witness :
    ∃ res, extract_parameter_values "temp-max" [[some (300 : ℚ)]] = some res
      ∧ res.values = [[some (26.85 : ℚ)]]
      ∧ res.statMin = some (26.85 : ℚ)
      ∧ res.statMax = some (26.85 : ℚ)
      ∧ res.statMean = some (26.85 : ℚ) := by
  obtain ⟨⟨res, h0, h1, h2, h3, h4, h5⟩, hpt⟩ :=
    temperature_kelvin_normalization "temp-max" [[some 300]] (Or.inl rfl) 300
      rfl (by norm_num)
  refine ⟨res, h0, ?_, ?_, ?_, ?_⟩
  · rw [h1]
    norm_num [kelvinToCelsius]
  · rw [h2]
    norm_num [kelvinToCelsius, validValues, listMin, List.filterMap_cons,
      List.filterMap_nil]
  · rw [h3]
    norm_num [kelvinToCelsius, validValues, listMax, List.filterMap_cons,
      List.filterMap_nil]
  · rw [h4]
    norm_num [kelvinToCelsius, validValues, listMean, List.filterMap_cons,
      List.filterMap_nil]

/-- Liveness of the three session attributes of `WRFDataFetcher`
(`self.proxy_client`, `self.target_client`, `self.sftp_client`):
`true` models the attribute holding an object, `false` models `None`. -/
structure FetcherState where
  proxy_client : Bool
  target_client : Bool
  sftp_client : Bool
deriving DecidableEq

/-- Which stages of the two-hop dial succeed, modelling the possible
exception points of `connect` (ssh_fetcher.py lines 109-195):
jump-host key-load/authentication, `open_channel` to the target,
target key-load/authentication, and `open_sftp`. -/
structure ConnEnv where
  proxyAuthOk : Bool
  channelOk : Bool
  targetAuthOk : Bool
  sftpOk : Bool
deriving DecidableEq

/-- `disconnect` (ssh_fetcher.py lines 197-216): closes and clears the
SFTP session, the target session and the jump-host session, in that
order; close errors are swallowed (modelled as closes never raising),
so every attribute ends cleared. -/
def disconnect (_st : FetcherState) : FetcherState := ⟨false, false, false⟩

/-- `connect` (ssh_fetcher.py lines 109-195): each client attribute is
assigned before its dial; any exception at any stage is caught by the
single `except` clause, which logs, calls `disconnect` and returns
`False`.  On success all three sessions are live and `True` is
returned.  The boolean is the only failure signal the caller gets. -/
def connect (env : ConnEnv) (st : FetcherState) : Bool × FetcherState :=
  let st1 : FetcherState := ⟨true, st.target_client, st.sftp_client⟩
  if ¬ env.proxyAuthOk then (false, disconnect st1)
  else if ¬ env.channelOk then (false, disconnect st1)
  else
    let st2 : FetcherState := ⟨true, true, st.sftp_client⟩
    if ¬ env.targetAuthOk then (false, disconnect st2)
    else if ¬ env.sftpOk then (false, disconnect st2)
    else (true, ⟨true, true, true⟩)

/-- Counterexample for C4 as stated: a jump-host authentication
failure and an SFTP-session-open failure surface to the caller of
`connect` as the same bare boolean `false` — no `ConnectionFailed`
error carrying the failing stage and cause reaches the caller. -/
theorem connect_no_stage_error_counterexample :
    (connect ⟨false, true, true, true⟩ ⟨false, false, false⟩).1 = false
    ∧ (connect ⟨true, true, true, false⟩ ⟨false, false, false⟩).1 = false
    ∧ (connect ⟨false, true, true, true⟩ ⟨false, false, false⟩).1
        = (connect ⟨true, true, true, false⟩ ⟨false, false, false⟩).1 := by
  refine ⟨rfl, rfl, rfl⟩

/-- Claim C4 (amended): if `connect` fails at any stage (jump-host
authentication, channel open, target authentication, or SFTP open),
all partially-established resources are torn down — no live SFTP,
target or jump-host session remains on the object — and the failure is
surfaced to the caller as the return value `False` (not as a typed
`ConnectionFailed{stage, cause}` error; the cause is only logged). -/
theorem connect_teardown_on_failure (env : ConnEnv) (st : FetcherState) :
    ((connect env st).1 = false ↔
      ¬(env.proxyAuthOk = true ∧ env.channelOk = true
        ∧ env.targetAuthOk = true ∧ env.sftpOk = true))
    ∧ ((connect env st).1 = false →
        (connect env st).2 = ⟨false, false, false⟩) := by
  obtain ⟨p, c, t, s⟩ := env
  cases p <;> cases c <;> cases t <;> cases s <;>
    simp [connect, disconnect]

/-- Witness for C4 at a concrete failing dial (SFTP open fails): the
state after the failed `connect` holds no live session. -/
theorem connect_teardown_witness :
    (connect ⟨true, true, true, false⟩ ⟨false, false, false⟩).2
      = ⟨false, false, false⟩ :=
  (connect_teardown_on_failure ⟨true, true, true, false⟩
    ⟨false, false, false⟩).2 rfl

/-- Outcome of the remote `sftp.stat` call in `check_run_exists`: the
path exists, the call raises `FileNotFoundError`, or it raises some
other (transport/IO) exception. -/
inductive StatOutcome
  | found
  | notFound
  | ioError
deriving DecidableEq

/-- `check_run_exists` (ssh_fetcher.py lines 262-276), with the stat
outcome supplied by the environment: `FileNotFoundError` returns
`False`, and the catch-all `except Exception` branch logs and also
returns `False`.  The `Except` result type makes propagation
expressible: every branch of the source is `Except.ok`. -/
def check_run_exists (statOf : String → StatOutcome)
    (remote_archive_path folder_name : String) : Except String Bool :=
  match statOf (remote_archive_path ++ "/" ++ folder_name) with
  | .found => .ok true
  | .notFound => .ok false
  | .ioError => .ok false

/-- Counterexample for C9 as stated: a mid-session I/O failure during
the stat is folded into the boolean — `check_run_exists` returns
`ok false`, indistinguishable from the not-found case, instead of
propagating a transport error to the caller. -/
theorem check_run_exists_ioerror_counterexample :
    check_run_exists (fun _ => .ioError) "/home/nwp/DA/SEVERE" "2025011219"
      = Except.ok false
    ∧ check_run_exists (fun _ => .notFound) "/home/nwp/DA/SEVERE" "2025011219"
      = Except.ok false :=
  ⟨rfl, rfl⟩

/-- Claim C9 (amended): `check_run_exists` always returns a boolean —
`true` exactly when the stat finds the run directory; both the
not-found case and any other transport error during the stat are
caught and yield `false`, and no error is ever propagated to the
caller. -/
theorem check_run_exists_boolean (statOf : String → StatOutcome)
    (root folder : String) :
    ∃ b : Bool, check_run_exists statOf root folder = Except.ok b
      ∧ (b = true ↔ statOf (root ++ "/" ++ folder) = .found) := by
  cases h : statOf (root ++ "/" ++ folder) <;>
    simp [check_run_exists, h]

/-- The filesystem/transfer state the downloader acts on: remote file
sizes (a path absent from `remote` makes `sftp.stat` raise), local
files with their sizes, and a running count of bytes written by
`sftp.get` (to observe re-transfers). -/
structure World where
  remote : String → Option Nat
  localFs : String → Option Nat
  transferred : Nat

/-- Outcome of one download attempt: an exception during stat/get
(`raise`), or a completed `sftp.get` leaving a local file of the given
size (a size different from the remote size models a truncated
transfer caught by the verification step). -/
inductive AttemptOutcome
  | raise
  | write (size : Nat)

/-- Result of `download_file`: the returned boolean, the world after
the call, and the number of attempts consumed. -/
structure DlResult where
  ok : Bool
  world : World
  attempts : Nat

/-- Write (or delete, with `none`) a local file. -/
def setLocal (w : World) (p : String) (v : Option Nat) : World :=
  ⟨w.remote, fun q => if q = p then v else w.localFs q, w.transferred⟩

/-- Account bytes moved by `sftp.get`. -/
def addTransferred (w : World) (n : Nat) : World :=
  ⟨w.remote, w.localFs, w.transferred + n⟩

/-- `download_file` (ssh_fetcher.py lines 336-375): up to
`max_retries` attempts; each attempt stats the remote size, transfers,
and verifies that the local size equals the remote size; a mismatch
deletes the partial local file; every exception inside an attempt is
caught and the loop continues; after the loop the function returns
`False` — a single-file failure is reported, never raised.  The first
argument of the `Nat` pair is the remaining fuel, the second the index
of the next attempt. -/
def download_file (oracle : Nat → AttemptOutcome)
    (remote_path local_path : String) :
    Nat → Nat → World → DlResult
  | 0, i, w => ⟨false, w, i⟩
  | n + 1, i, w =>
    match w.remote remote_path with
    | none => download_file oracle remote_path local_path n (i + 1) w
    | some rsize =>
      match oracle i with
      | .raise => download_file oracle remote_path local_path n (i + 1) w
      | .write s =>
        if s = rsize then
          ⟨true, addTransferred (setLocal w local_path (some s)) s, i + 1⟩
        else
          download_file oracle remote_path local_path n (i + 1)
            (setLocal (addTransferred (setLocal w local_path (some s)) s)
              local_path none)

/-- One entry of the `list_grib_files` result: file name, remote path
and forecast hour (the fields `download_forecast_run` uses). -/
structure FileInfo where
  name : String
  remote_path : String
  hour : Nat
deriving DecidableEq

/-- `local_folder / file_info["name"]`. -/
def localPathOf (folder name : String) : String := folder ++ "/" ++ name

/-- The local paths a list of files is downloaded to. -/
def pathsOf (folder : String) (fs : List FileInfo) : List String :=
  fs.map (fun f => localPathOf folder f.name)

/-- The skip-if-already-downloaded check of `download_forecast_run`
(ssh_fetcher.py lines 427-437): the local file exists and the remote
stat succeeds and reports an equal size; a failing stat falls through
to a download (`except: pass`). -/
def skipCheck (w : World) (lp rp : String) : Bool :=
  match w.localFs lp, w.remote rp with
  | some lsize, some rsize => lsize == rsize
  | _, _ => false

/-- Prepend a path to the success list of a loop result. -/
def consSucc (p : String) (t : List String × List String × World) :
    List String × List String × World :=
  (p :: t.1, t.2.1, t.2.2)

/-- Prepend a path to the failed list of a loop result. -/
def consFail (p : String) (t : List String × List String × World) :
    List String × List String × World :=
  (t.1, p :: t.2.1, t.2.2)

/-- The per-file loop of `download_forecast_run` (ssh_fetcher.py lines
420-443): skip-by-size-match counts as success; otherwise
`download_file` decides between the success and failed lists; the loop
never aborts early.  `oracle idx` supplies the attempt outcomes of the
`idx`-th file. -/
def downloadRunLoop (oracle : Nat → Nat → AttemptOutcome) (folder : String)
    (max_retries : Nat) : List FileInfo → Nat → World →
      List String × List String × World
  | [], _, w => ([], [], w)
  | f :: rest, idx, w =>
    if skipCheck w (localPathOf folder f.name) f.remote_path then
      consSucc (localPathOf folder f.name)
        (downloadRunLoop oracle folder max_retries rest (idx + 1) w)
    else
      if (download_file (oracle idx) f.remote_path
          (localPathOf folder f.name) max_retries 0 w).ok then
        consSucc (localPathOf folder f.name)
          (downloadRunLoop oracle folder max_retries rest (idx + 1)
            (download_file (oracle idx) f.remote_path
              (localPathOf folder f.name) max_retries 0 w).world)
      else
        consFail f.remote_path
          (downloadRunLoop oracle folder max_retries rest (idx + 1)
            (download_file (oracle idx) f.remote_path
              (localPathOf folder f.name) max_retries 0 w).world)

/-- The dict returned by `download_forecast_run`: success and failed
path lists, the total number of files to download, and the local run
folder name. -/
structure RunResult where
  success : List String
  failed : List String
  total : Nat
  run_folder : String

/-- `download_forecast_run` (ssh_fetcher.py lines 377-447): filters
the listed files by `hour <= max_hours`, sets `total` to the filtered
count, and runs the per-file loop. -/
def download_forecast_run (oracle : Nat → Nat → AttemptOutcome) (w : World)
    (folder : String) (listing : List FileInfo)
    (max_hours max_retries : Nat) : RunResult × World :=
  let files := listing.filter (fun f => f.hour ≤ max_hours)
  let res := downloadRunLoop oracle folder max_retries files 0 w
  (⟨res.1, res.2.1, files.length, folder⟩, res.2.2)

/-- The success paths selected by a per-file outcome flag list. -/
def chooseSucc (folder : String) : List FileInfo → List Bool → List String
  | f :: fs, true :: bs => localPathOf folder f.name :: chooseSucc folder fs bs
  | _ :: fs, false :: bs => chooseSucc folder fs bs
  | _, _ => []

/-- The failed remote paths selected by a per-file outcome flag list. -/
def chooseFail : List FileInfo → List Bool → List String
  | _ :: fs, true :: bs => chooseFail fs bs
  | f :: fs, false :: bs => f.remote_path :: chooseFail fs bs
  | _, _ => []

theorem download_file_attempts_le (oracle : Nat → AttemptOutcome)
    (rp lp : String) :
    ∀ (n i : Nat) (w : World),
      (download_file oracle rp lp n i w).attempts ≤ i + n := by
  intro n
  induction n with
  | zero => intro i w; simp [download_file]
  | succ n ih =>
    intro i w
    unfold download_file
    cases hr : w.remote rp with
    | none =>
      simp only
      have h := ih (i + 1) w
      omega
    | some rsize =>
      cases ho : oracle i with
      | raise =>
        simp only
        have h := ih (i + 1) w
        omega
      | write s =>
        simp only
        by_cases hs : s = rsize
        · rw [if_pos hs]
          show i + 1 ≤ i + (n + 1)
          omega
        · rw [if_neg hs]
          have h := ih (i + 1)
            (setLocal (addTransferred (setLocal w lp (some s)) s) lp none)
          omega

theorem download_file_remote (oracle : Nat → AttemptOutcome)
    (rp lp : String) :
    ∀ (n i : Nat) (w : World),
      (download_file oracle rp lp n i w).world.remote = w.remote := by
  intro n
  induction n with
  | zero => intro i w; rfl
  | succ n ih =>
    intro i w
    unfold download_file
    cases hr : w.remote rp with
    | none =>
      simp only
      exact ih (i + 1) w
    | some rsize =>
      cases ho : oracle i with
      | raise =>
        simp only
        exact ih (i + 1) w
      | write s =>
        simp only
        by_cases hs : s = rsize
        · rw [if_pos hs]
          rfl
        · rw [if_neg hs]
          exact ih (i + 1) _

theorem download_file_localFs_other (oracle : Nat → AttemptOutcome)
    (rp lp : String) :
    ∀ (n i : Nat) (w : World) (p : String), p ≠ lp →
      (download_file oracle rp lp n i w).world.localFs p = w.localFs p := by
  intro n
  induction n with
  | zero => intro i w p _; rfl
  | succ n ih =>
    intro i w p hp
    unfold download_file
    cases hr : w.remote rp with
    | none =>
      simp only
      exact ih (i + 1) w p hp
    | some rsize =>
      cases ho : oracle i with
      | raise =>
        simp only
        exact ih (i + 1) w p hp
      | write s =>
        simp only
        by_cases hs : s = rsize
        · rw [if_pos hs]
          simp [addTransferred, setLocal, if_neg hp]
        · rw [if_neg hs]
          rw [ih (i + 1) _ p hp]
          simp [addTransferred, setLocal, if_neg hp]

theorem download_file_ok_post (oracle : Nat → AttemptOutcome)
    (rp lp : String) :
    ∀ (n i : Nat) (w : World),
      (download_file oracle rp lp n i w).ok = true →
      ∃ r, w.remote rp = some r
        ∧ (download_file oracle rp lp n i w).world.localFs lp = some r := by
  intro n
  induction n with
  | zero => intro i w h; exact absurd h (by simp [download_file])
  | succ n ih =>
    intro i w h
    unfold download_file at h ⊢
    cases hr : w.remote rp with
    | none =>
      rw [hr] at h
      simp only at h ⊢
      rcases ih (i + 1) w h with ⟨r, hrr, _⟩
      rw [hr] at hrr
      exact Option.noConfusion hrr
    | some rsize =>
      rw [hr] at h
      cases ho : oracle i with
      | raise =>
        rw [ho] at h
        simp only at h ⊢
        rcases ih (i + 1) w h with ⟨r, hrr, hl⟩
        rw [hr] at hrr
        exact ⟨r, hrr, hl⟩
      | write s =>
        rw [ho] at h
        simp only at h ⊢
        by_cases hs : s = rsize
        · rw [if_pos hs]
          refine ⟨rsize, rfl, ?_⟩
          simp [addTransferred, setLocal, hs]
        · rw [if_neg hs] at h ⊢
          rcases ih (i + 1)
            (setLocal (addTransferred (setLocal w lp (some s)) s) lp none)
            h with ⟨r, hr2, hl2⟩
          have hsame : (setLocal (addTransferred (setLocal w lp (some s)) s)
              lp none).remote rp = w.remote rp := rfl
          rw [hsame, hr] at hr2
          exact ⟨r, hr2, hl2⟩

theorem downloadRunLoop_remote (oracle : Nat → Nat → AttemptOutcome)
    (folder : String) (mr : Nat) :
    ∀ (fs : List FileInfo) (idx : Nat) (w : World),
      (downloadRunLoop oracle folder mr fs idx w).2.2.remote = w.remote := by
  intro fs
  induction fs with
  | nil => intro idx w; rfl
  | cons f rest ih =>
    intro idx w
    unfold downloadRunLoop
    by_cases hskip : skipCheck w (localPathOf folder f.name) f.remote_path = true
    · rw [if_pos hskip]
      exact ih (idx + 1) w
    · rw [if_neg hskip]
      by_cases hok : (download_file (oracle idx) f.remote_path
          (localPathOf folder f.name) mr 0 w).ok = true
      · rw [if_pos hok]
        exact (ih (idx + 1) _).trans
          (download_file_remote (oracle idx) f.remote_path
            (localPathOf folder f.name) mr 0 w)
      · rw [if_neg hok]
        exact (ih (idx + 1) _).trans
          (download_file_remote (oracle idx) f.remote_path
            (localPathOf folder f.name) mr 0 w)

theorem downloadRunLoop_localFs_other (oracle : Nat → Nat → AttemptOutcome)
    (folder : String) (mr : Nat) :
    ∀ (fs : List FileInfo) (idx : Nat) (w : World) (p : String),
      p ∉ pathsOf folder fs →
      (downloadRunLoop oracle folder mr fs idx w).2.2.localFs p
        = w.localFs p := by
  intro fs
  induction fs with
  | nil => intro idx w p _; rfl
  | cons f rest ih =>
    intro idx w p hp
    have hpf : p ≠ localPathOf folder f.name := by
      intro he
      exact hp (by simp [pathsOf, he])
    have hpr : p ∉ pathsOf folder rest := by
      intro he
      exact hp (by simp [pathsOf] at he ⊢; right; exact he)
    unfold downloadRunLoop
    by_cases hskip : skipCheck w (localPathOf folder f.name) f.remote_path = true
    · rw [if_pos hskip]
      exact ih (idx + 1) w p hpr
    · rw [if_neg hskip]
      by_cases hok : (download_file (oracle idx) f.remote_path
          (localPathOf folder f.name) mr 0 w).ok = true
      · rw [if_pos hok]
        exact (ih (idx + 1) _ p hpr).trans
          (download_file_localFs_other (oracle idx) f.remote_path
            (localPathOf folder f.name) mr 0 w p hpf)
      · rw [if_neg hok]
        exact (ih (idx + 1) _ p hpr).trans
          (download_file_localFs_other (oracle idx) f.remote_path
            (localPathOf folder f.name) mr 0 w p hpf)

theorem skipCheck_true_iff (w : World) (lp rp : String) :
    skipCheck w lp rp = true ↔
      ∃ r, w.localFs lp = some r ∧ w.remote rp = some r := by
  unfold skipCheck
  cases hl : w.localFs lp with
  | none => simp
  | some l =>
    cases hrm : w.remote rp with
    | none => simp
    | some r =>
      simp only [beq_iff_eq, Option.some.injEq]
      constructor
      · intro h
        exact ⟨l, rfl, h.symm⟩
      · rintro ⟨x, h1, h2⟩
        rw [h1, h2]

/-- A file whose local copy exists with the remote size. -/
def GoodFile (folder : String) (w : World) (f : FileInfo) : Prop :=
  ∃ r, w.remote f.remote_path = some r
    ∧ w.localFs (localPathOf folder f.name) = some r

theorem downloadRunLoop_all_good (oracle : Nat → Nat → AttemptOutcome)
    (folder : String) (mr : Nat) :
    ∀ (fs : List FileInfo) (idx : Nat) (w : World),
      (∀ f ∈ fs, GoodFile folder w f) →
      downloadRunLoop oracle folder mr fs idx w = (pathsOf folder fs, [], w) := by
  intro fs
  induction fs with
  | nil => intro idx w _; rfl
  | cons f rest ih =>
    intro idx w hall
    rcases hall f (List.mem_cons_self f rest) with ⟨r, hrm, hlf⟩
    have hskip : skipCheck w (localPathOf folder f.name) f.remote_path = true :=
      (skipCheck_true_iff w _ _).mpr ⟨r, hlf, hrm⟩
    unfold downloadRunLoop
    rw [if_pos hskip,
      ih (idx + 1) w (fun g hg => hall g (List.mem_cons_of_mem f hg))]
    rfl

theorem downloadRunLoop_failed_empty_good (oracle : Nat → Nat → AttemptOutcome)
    (folder : String) (mr : Nat) :
    ∀ (fs : List FileInfo) (idx : Nat) (w : World),
      (pathsOf folder fs).Nodup →
      (downloadRunLoop oracle folder mr fs idx w).2.1 = [] →
      ∀ f ∈ fs,
        GoodFile folder (downloadRunLoop oracle folder mr fs idx w).2.2 f := by
  intro fs
  induction fs with
  | nil => intro idx w _ _ f hf; exact absurd hf (List.not_mem_nil f)
  | cons f rest ih =>
    intro idx w hnd hfail g hg
    have hnd2 : (pathsOf folder rest).Nodup := by
      have : pathsOf folder (f :: rest)
          = localPathOf folder f.name :: pathsOf folder rest := rfl
      rw [this] at hnd
      exact (List.nodup_cons.mp hnd).2
    have hlpn : localPathOf folder f.name ∉ pathsOf folder rest := by
      have : pathsOf folder (f :: rest)
          = localPathOf folder f.name :: pathsOf folder rest := rfl
      rw [this] at hnd
      exact (List.nodup_cons.mp hnd).1
    unfold downloadRunLoop at hfail ⊢
    by_cases hskip : skipCheck w (localPathOf folder f.name) f.remote_path = true
    · rw [if_pos hskip] at hfail ⊢
      have hfail2 : (downloadRunLoop oracle folder mr rest (idx + 1) w).2.1
          = [] := hfail
      rcases List.mem_cons.mp hg with hgf | hgr
      · subst hgf
        rcases (skipCheck_true_iff w _ _).mp hskip with ⟨r, hlf, hrm⟩
        refine ⟨r, ?_, ?_⟩
        · show (downloadRunLoop oracle folder mr rest (idx + 1) w).2.2.remote
            g.remote_path = some r
          rw [downloadRunLoop_remote oracle folder mr rest (idx + 1) w]
          exact hrm
        · show (downloadRunLoop oracle folder mr rest (idx + 1) w).2.2.localFs
            (localPathOf folder g.name) = some r
          rw [downloadRunLoop_localFs_other oracle folder mr rest (idx + 1)
            w (localPathOf folder g.name) hlpn]
          exact hlf
      · exact ih (idx + 1) w hnd2 hfail2 g hgr
    · rw [if_neg hskip] at hfail ⊢
      by_cases hok : (download_file (oracle idx) f.remote_path
          (localPathOf folder f.name) mr 0 w).ok = true
      · rw [if_pos hok] at hfail ⊢
        have hfail2 : (downloadRunLoop oracle folder mr rest (idx + 1)
            (download_file (oracle idx) f.remote_path
              (localPathOf folder f.name) mr 0 w).world).2.1 = [] := hfail
        rcases List.mem_cons.mp hg with hgf | hgr
        · subst hgf
          rcases download_file_ok_post (oracle idx) g.remote_path
            (localPathOf folder g.name) mr 0 w hok with ⟨r, hrm, hlf⟩
          refine ⟨r, ?_, ?_⟩
          · show (downloadRunLoop oracle folder mr rest (idx + 1)
                (download_file (oracle idx) g.remote_path
                  (localPathOf folder g.name) mr 0 w).world).2.2.remote
              g.remote_path = some r
            rw [downloadRunLoop_remote, download_file_remote]
            exact hrm
          · show (downloadRunLoop oracle folder mr rest (idx + 1)
                (download_file (oracle idx) g.remote_path
                  (localPathOf folder g.name) mr 0 w).world).2.2.localFs
              (localPathOf folder g.name) = some r
            rw [downloadRunLoop_localFs_other oracle folder mr rest (idx + 1)
              _ (localPathOf folder g.name) hlpn]
            exact hlf
        · exact ih (idx + 1) _ hnd2 hfail2 g hgr
      · rw [if_neg hok] at hfail
        exact absurd hfail (by simp [consFail])

theorem downloadRunLoop_partition (oracle : Nat → Nat → AttemptOutcome)
    (folder : String) (mr : Nat) :
    ∀ (fs : List FileInfo) (idx : Nat) (w : World),
      ∃ flags : List Bool, flags.length = fs.length
        ∧ (downloadRunLoop oracle folder mr fs idx w).1
            = chooseSucc folder fs flags
        ∧ (downloadRunLoop oracle folder mr fs idx w).2.1
            = chooseFail fs flags := by
  intro fs
  induction fs with
  | nil => intro idx w; exact ⟨[], rfl, rfl, rfl⟩
  | cons f rest ih =>
    intro idx w
    unfold downloadRunLoop
    by_cases hskip : skipCheck w (localPathOf folder f.name) f.remote_path = true
    · rw [if_pos hskip]
      rcases ih (idx + 1) w with ⟨flags, hl, hs, hf⟩
      refine ⟨true :: flags, by simp [hl], ?_, ?_⟩
      · show localPathOf folder f.name
            :: (downloadRunLoop oracle folder mr rest (idx + 1) w).1
          = localPathOf folder f.name :: chooseSucc folder rest flags
        rw [hs]
      · exact hf
    · rw [if_neg hskip]
      by_cases hok : (download_file (oracle idx) f.remote_path
          (localPathOf folder f.name) mr 0 w).ok = true
      · rw [if_pos hok]
        rcases ih (idx + 1) (download_file (oracle idx) f.remote_path
          (localPathOf folder f.name) mr 0 w).world with ⟨flags, hl, hs, hf⟩
        refine ⟨true :: flags, by simp [hl], ?_, hf⟩
        show localPathOf folder f.name :: _ = localPathOf folder f.name :: _
        rw [hs]
      · rw [if_neg hok]
        rcases ih (idx + 1) (download_file (oracle idx) f.remote_path
          (localPathOf folder f.name) mr 0 w).world with ⟨flags, hl, hs, hf⟩
        refine ⟨false :: flags, by simp [hl], hs, ?_⟩
        show f.remote_path :: _ = f.remote_path :: _
        rw [hf]

/-- Claim C2: a single-file download failure is never raised —
`download_file` returns a success/failure boolean after at most
`max_retries` attempts (the model presumes a connected transport, as
the source raises `ConnectionError` up front otherwise), and
`download_forecast_run` continues through the full filtered file list:
there is a per-file outcome flag list under which the success and
failed lists are exactly the flagged partition of the requested files
(each requested file lands in exactly one list), with the reported
total equal to the number of requested files. -/
theorem download_partial_failure_semantics :
    (∀ (oracle : Nat → AttemptOutcome) (rp lp : String) (mr : Nat) (w : World),
        (download_file oracle rp lp mr 0 w).attempts ≤ mr)
    ∧ ∀ (oracle : Nat → Nat → AttemptOutcome) (w : World) (folder : String)
        (listing : List FileInfo) (mh mr : Nat),
        (download_forecast_run oracle w folder listing mh mr).1.total
          = (listing.filter (fun f => f.hour ≤ mh)).length
        ∧ ∃ flags : List Bool,
            flags.length = (listing.filter (fun f => f.hour ≤ mh)).length
            ∧ (download_forecast_run oracle w folder listing mh mr).1.success
                = chooseSucc folder (listing.filter (fun f => f.hour ≤ mh)) flags
            ∧ (download_forecast_run oracle w folder listing mh mr).1.failed
                = chooseFail (listing.filter (fun f => f.hour ≤ mh)) flags := by
  constructor
  · intro oracle rp lp mr w
    have h := download_file_attempts_le oracle rp lp mr 0 w
    omega
  · intro oracle w folder listing mh mr
    refine ⟨rfl, ?_⟩
    rcases downloadRunLoop_partition oracle folder mr
      (listing.filter (fun f => f.hour ≤ mh)) 0 w with ⟨flags, hl, hs, hf⟩
    exact ⟨flags, hl, hs, hf⟩

/-- Claim C5: `download_forecast_run` is idempotent — after a fully
successful run (empty failed list) over distinct local paths, a second
run with the remote unchanged skips every file by the size match,
yields an empty failed list again, leaves the world untouched
(in particular transfers no bytes), and reports every file as a
success. -/
theorem downloadRun_idempotent
    (oracle oracle2 : Nat → Nat → AttemptOutcome) (w : World)
    (folder : String) (listing : List FileInfo) (mh mr : Nat)
    (hnd : (pathsOf folder (listing.filter (fun f => f.hour ≤ mh))).Nodup)
    (h1 : (download_forecast_run oracle w folder listing mh mr).1.failed = []) :
    (download_forecast_run oracle2
        (download_forecast_run oracle w folder listing mh mr).2
        folder listing mh mr).1.failed = []
    ∧ (download_forecast_run oracle2
        (download_forecast_run oracle w folder listing mh mr).2
        folder listing mh mr).2
      = (download_forecast_run oracle w folder listing mh mr).2
    ∧ (download_forecast_run oracle2
        (download_forecast_run oracle w folder listing mh mr).2
        folder listing mh mr).2.transferred
      = (download_forecast_run oracle w folder listing mh mr).2.transferred
    ∧ (download_forecast_run oracle2
        (download_forecast_run oracle w folder listing mh mr).2
        folder listing mh mr).1.success.length
      = (download_forecast_run oracle2
          (download_forecast_run oracle w folder listing mh mr).2
          folder listing mh mr).1.total := by
  have hgood : ∀ f ∈ listing.filter (fun f => f.hour ≤ mh),
      GoodFile folder (downloadRunLoop oracle folder mr
        (listing.filter (fun f => f.hour ≤ mh)) 0 w).2.2 f :=
    downloadRunLoop_failed_empty_good oracle folder mr
      (listing.filter (fun f => f.hour ≤ mh)) 0 w hnd h1
  have hall := downloadRunLoop_all_good oracle2 folder mr
    (listing.filter (fun f => f.hour ≤ mh)) 0
    (downloadRunLoop oracle folder mr
      (listing.filter (fun f => f.hour ≤ mh)) 0 w).2.2 hgood
  refine ⟨?_, ?_, ?_, ?_⟩
  · show (downloadRunLoop oracle2 folder mr
        (listing.filter (fun f => f.hour ≤ mh)) 0
        (downloadRunLoop oracle folder mr
          (listing.filter (fun f => f.hour ≤ mh)) 0 w).2.2).2.1 = []
    rw [hall]
  · show (downloadRunLoop oracle2 folder mr
        (listing.filter (fun f => f.hour ≤ mh)) 0
        (downloadRunLoop oracle folder mr
          (listing.filter (fun f => f.hour ≤ mh)) 0 w).2.2).2.2
      = (downloadRunLoop oracle folder mr
          (listing.filter (fun f => f.hour ≤ mh)) 0 w).2.2
    rw [hall]
  · show (downloadRunLoop oracle2 folder mr
        (listing.filter (fun f => f.hour ≤ mh)) 0
        (downloadRunLoop oracle folder mr
          (listing.filter (fun f => f.hour ≤ mh)) 0 w).2.2).2.2.transferred
      = (downloadRunLoop oracle folder mr
          (listing.filter (fun f => f.hour ≤ mh)) 0 w).2.2.transferred
    rw [hall]
  · show (downloadRunLoop oracle2 folder mr
        (listing.filter (fun f => f.hour ≤ mh)) 0
        (downloadRunLoop oracle folder mr
          (listing.filter (fun f => f.hour ≤ mh)) 0 w).2.2).1.length
      = (listing.filter (fun f => f.hour ≤ mh)).length
    rw [hall]
    exact List.length_map _ _

/-- A one-file demo world: one remote file of size 4, empty local
storage, no bytes transferred yet. -/
def demoWorld : World :=
  ⟨fun p => if p = "R/a" then some 4 else none, fun _ => none, 0⟩

/-- The demo listing with the single remote file. -/
def demoListing : List FileInfo := [⟨"a", "R/a", 0⟩]

/-- Transfer attempts that always write the full 4 bytes. -/
def demoOracle : Nat → Nat → AttemptOutcome := fun _ _ => .write 4

/-- Witness for C5: on the demo world the first run downloads the file
and reports no failures; the theorem then gives that the second run
also reports no failures and transfers no further bytes. -/
theorem downloadRun_idempotent_witness :
    (download_forecast_run demoOracle demoWorld "L" demoListing 72 3).1.failed
      = []
    ∧ (download_forecast_run demoOracle
        (download_forecast_run demoOracle demoWorld "L" demoListing 72 3).2
        "L" demoListing 72 3).1.failed = []
    ∧ (download_forecast_run demoOracle
        (download_forecast_run demoOracle demoWorld "L" demoListing 72 3).2
        "L" demoListing 72 3).2.transferred
      = (download_forecast_run demoOracle demoWorld "L" demoListing 72 3).2.transferred := by
  have hnd : (pathsOf "L" (demoListing.filter (fun f => f.hour ≤ 72))).Nodup := by
    simp [demoListing, pathsOf, localPathOf]
  have h1 : (download_forecast_run demoOracle demoWorld "L" demoListing
      72 3).1.failed = [] := rfl
  exact ⟨h1,
    (downloadRun_idempotent demoOracle demoOracle demoWorld "L" demoListing
      72 3 hnd h1).1,
    (downloadRun_idempotent demoOracle demoOracle demoWorld "L" demoListing
      72 3 hnd h1).2.2.1⟩

end KMDNWP
